import Mathlib

/-!
# Verification of the jirac client library's query/header builder and
# request-pipeline specification

Shallow embedding of the Rust sources under `src/` (v2/user.rs,
v2/application_role.rs, lib.rs).  Components whose source files are not in
the repository snapshot (client.rs, errors.rs, options.rs, v2/pagination.rs,
v2/group.rs, v2/item.rs) are modelled from the specification where a claim
needs them; each such definition says so in its doc comment.
-/

set_option autoImplicit false

namespace Jirac

/-- The `Expand` enum from src/v2/user.rs (lines 19-22): the closed set of
tokens accepted by the "expand" query directive. -/
inductive Expand where
  | Groups
  | ApplicationRoles
deriving DecidableEq, Repr

/-- `Expand::to_string` from src/v2/user.rs (lines 24-31): the canonical wire
string of each token. -/
def Expand.to_string : Expand → String
  | .Groups => "groups"
  | .ApplicationRoles => "applicationRoles"

/-- A query/header mapping, modelling Rust's `HashMap<String, String>` by its
observable association: a list of key/value pairs in which keys are unique
(every insertion in the sources uses `HashMap::insert`, which replaces any
existing binding of the key). -/
abbrev QueryMap := List (String × String)

/-- `HashMap::insert` semantics on the association-list model: replace the
binding if the key is present, otherwise append the new pair.  (Keys are
unique, so replacing the first occurrence is replacing the only one.) -/
def QueryMap.insert : QueryMap → String → String → QueryMap
  | [], k, v => [(k, v)]
  | p :: m, k, v => if p.1 == k then (k, v) :: m else p :: QueryMap.insert m k v

/-- `HashMap::get` semantics: the value bound to `k`, if any. -/
def QueryMap.find (m : QueryMap) (k : String) : Option String :=
  (m.find? (fun p => p.1 == k)).map Prod.snd

/-- Rust's `String::pop` as used in `expand_to_hashmap`: remove the last
character of the string; on the empty string it is a no-op.  (All strings
involved are ASCII, so "last char" and "last byte" coincide.) -/
def rustPop (s : String) : String :=
  String.mk s.data.dropLast

/-- `expand_to_hashmap` from src/v2/user.rs (lines 171-181): fold the tokens
into `"<tok>,"` segments, pop the final character, and unconditionally insert
the result under the key `"expand"`. -/
def expand_to_hashmap (e : List Expand) : QueryMap :=
  let value := e.foldl (fun acc t => acc ++ t.to_string ++ ",") ""
  let value := rustPop value
  QueryMap.insert [] "expand" value

/-- The comma-separated rendering the specification describes: every element
exactly once, in order, separated by single commas, with no leading and no
trailing comma. -/
def commaJoin : List String → String
  | [] => ""
  | [x] => x
  | x :: y :: xs => x ++ "," ++ commaJoin (y :: xs)

theorem string_append_data (a b : String) : (a ++ b).data = a.data ++ b.data := by
  cases a; cases b; rfl

theorem string_mk_data (s : String) : String.mk s.data = s := by
  cases s; rfl

theorem string_ext {a b : String} (h : a.data = b.data) : a = b := by
  cases a; cases b; exact congrArg String.mk (by simpa using h)

theorem string_append_assoc (a b c : String) : a ++ b ++ c = a ++ (b ++ c) := by
  apply string_ext; simp [string_append_data]

theorem string_empty_append (a : String) : "" ++ a = a := by
  apply string_ext; simp [string_append_data]

theorem rustPop_append_comma (s : String) : rustPop (s ++ ",") = s := by
  unfold rustPop
  rw [string_append_data]
  show String.mk ((s.data ++ [',']).dropLast) = s
  rw [List.dropLast_concat, string_mk_data]

theorem string_append_empty (a : String) : a ++ "" = a := by
  apply string_ext; simp [string_append_data]

/-- The fold in `expand_to_hashmap` appends onto its accumulator, so factoring
out the accumulator is sound. -/
theorem expand_fold_shift (e : List Expand) (a : String) :
    e.foldl (fun acc t => acc ++ t.to_string ++ ",") a
      = a ++ e.foldl (fun acc t => acc ++ t.to_string ++ ",") "" := by
  induction e generalizing a with
  | nil => simp [string_append_empty]
  | cons x xs ih =>
    simp only [List.foldl_cons]
    rw [ih (a ++ x.to_string ++ ","), ih ("" ++ x.to_string ++ ",")]
    apply string_ext
    simp [string_append_data, List.append_assoc]

/-- On a token list with head `x` the fold produces the comma-join of the wire
strings followed by one trailing comma. -/
theorem expand_fold_cons (xs : List Expand) :
    ∀ x : Expand,
      (x :: xs).foldl (fun acc t => acc ++ t.to_string ++ ",") ""
        = commaJoin ((x :: xs).map Expand.to_string) ++ "," := by
  induction xs with
  | nil =>
    intro x
    simp [commaJoin, string_empty_append]
  | cons y ys ih =>
    intro x
    rw [List.foldl_cons]
    rw [expand_fold_shift (y :: ys), ih y]
    simp only [List.map_cons, commaJoin]
    apply string_ext
    simp [string_append_data, List.append_assoc]

/-- C1: for every non-empty list of expand tokens, `expand_to_hashmap`
produces an `"expand"` entry whose value is the wire string of every token of
the list exactly once, in the input list's order, joined by commas, with no
leading and no trailing comma. -/
theorem expand_to_hashmap_nonempty_comma_join (e : List Expand) (h : e ≠ []) :
    expand_to_hashmap e = [("expand", commaJoin (e.map Expand.to_string))] := by
  cases e with
  | nil => exact absurd rfl h
  | cons x xs =>
    simp only [expand_to_hashmap]
    rw [expand_fold_cons xs x, rustPop_append_comma]
    rfl

/-- Witness for C1 at the claim's own example: `[Groups, ApplicationRoles]`
maps to the value `"groups,applicationRoles"`. -/
theorem expand_to_hashmap_nonempty_comma_join_witness :
    expand_to_hashmap [Expand.Groups, Expand.ApplicationRoles]
      = [("expand", "groups,applicationRoles")] := by
  rw [expand_to_hashmap_nonempty_comma_join [Expand.Groups, Expand.ApplicationRoles]
    (by simp)]
  rfl

/-- C2 (refuted by the code): `expand_to_hashmap` inserts the `"expand"` key
unconditionally, so the empty token list yields an entry whose value is the
empty string, not the absence of an entry the spec demands. -/
theorem expand_to_hashmap_empty_entry :
    expand_to_hashmap [] = [("expand", "")]
      ∧ QueryMap.find (expand_to_hashmap []) "expand" = some "" := by
  constructor <;> rfl

/-- `UserOptions` from src/v2/user.rs (lines 36-42): both fields are plain
booleans. -/
structure UserOptions where
  include_inactive : Bool
  include_active : Bool

/-- The `Pagination` struct is not under src/ (v2/pagination.rs is absent);
modelled from the spec's glossary — offset (`start_at`) and page size
(`max_results`) — and from its use in `User::search`, where both fields are
formatted unconditionally, hence plain integers. -/
structure Pagination where
  start_at : Nat
  max_results : Nat

/-- Rust's `bool::to_string`. -/
def rustBoolString (b : Bool) : String :=
  if b then "true" else "false"

/-- The query map built by `User::search` (src/v2/user.rs lines 88-115):
`"username"` always, the two `UserOptions` fields when `opts` is `Some`, and
the two `Pagination` fields when `page` is `Some`. -/
def searchQuery (search : String) (opts : Option UserOptions)
    (page : Option Pagination) : QueryMap :=
  let query := QueryMap.insert [] "username" search
  let query :=
    match opts with
    | none => query
    | some o =>
        QueryMap.insert
          (QueryMap.insert query "includeInactive" (rustBoolString o.include_inactive))
          "includeActive" (rustBoolString o.include_active)
  let query :=
    match page with
    | none => query
    | some p =>
        QueryMap.insert
          (QueryMap.insert query "startAt" (toString p.start_at))
          "maxResults" (toString p.max_results)
  query

/-- Modelled from the spec: the repository's standalone pagination option
struct (v2/pagination.rs / options.rs are not under src/).  Per §4.1 the
builder's input is "an option struct with optional fields (e.g., `start_at`,
`max_results`, ...)" where "each field absent means omit from request". -/
structure PaginationOptions where
  start_at : Option Nat
  max_results : Option Nat

/-- Modelled from the spec: the Query/Header Builder's translation of a
pagination option struct — emit `startAt`/`maxResults` entries only for the
fields that are set. -/
def pagination_to_query (p : PaginationOptions) : QueryMap :=
  let q : QueryMap := []
  let q :=
    match p.start_at with
    | none => q
    | some n => QueryMap.insert q "startAt" (toString n)
  let q :=
    match p.max_results with
    | none => q
    | some n => QueryMap.insert q "maxResults" (toString n)
  q

/-- Looking up the freshly inserted key finds the new value. -/
theorem QueryMap.find_insert_self (m : QueryMap) (k v : String) :
    (m.insert k v).find k = some v := by
  induction m with
  | nil => simp [QueryMap.insert, QueryMap.find, List.find?]
  | cons p m ih =>
    by_cases h : p.1 == k
    · simp [QueryMap.insert, QueryMap.find, List.find?, h]
    · simp only [QueryMap.insert, h, if_false]
      simp only [QueryMap.find, List.find?, h] at ih ⊢
      exact ih

/-- Inserting under one key does not change the lookup of a different key. -/
theorem QueryMap.find_insert_ne (m : QueryMap) (k k' v : String) (h : k ≠ k') :
    (m.insert k v).find k' = m.find k' := by
  induction m with
  | nil =>
    simp [QueryMap.insert, QueryMap.find, List.find?,
      show (k == k') = false from beq_eq_false_iff_ne.mpr h]
  | cons p m ih =>
    by_cases hp : p.1 == k
    · have hk : (k == k') = false := beq_eq_false_iff_ne.mpr h
      have hp' : (p.1 == k') = false := by
        rw [show p.1 = k from eq_of_beq hp]; exact hk
      simp [QueryMap.insert, QueryMap.find, List.find?, hp, hk, hp']
    · simp only [QueryMap.insert, hp, if_false]
      by_cases hq : p.1 == k'
      · simp [QueryMap.find, List.find?, hq]
      · simp only [QueryMap.find, List.find?, hq] at ih ⊢
        exact ih

/-- C3: fields left unset produce no entry in the query mapping built by
`User::search` — with options and pagination unset the map holds only the
mandatory `"username"` entry, an unset options struct contributes neither
`includeInactive` nor `includeActive`, an unset pagination struct contributes
neither `startAt` nor `maxResults` — and the spec-modelled pagination builder
applied to an all-unset pagination option yields the empty mapping. -/
theorem search_query_omits_unset_fields :
    (∀ s, searchQuery s none none = [("username", s)])
    ∧ (∀ s page, (searchQuery s none page).find "includeInactive" = none
        ∧ (searchQuery s none page).find "includeActive" = none)
    ∧ (∀ s opts, (searchQuery s opts none).find "startAt" = none
        ∧ (searchQuery s opts none).find "maxResults" = none)
    ∧ pagination_to_query ⟨none, none⟩ = [] := by
  refine ⟨fun s => rfl, fun s page => ?_, fun s opts => ?_, rfl⟩
  · cases page with
    | none => exact ⟨rfl, rfl⟩
    | some p => exact ⟨rfl, rfl⟩
  · cases opts with
    | none => exact ⟨rfl, rfl⟩
    | some o => exact ⟨rfl, rfl⟩

/-- C9: the query map of `User::search` always binds `"username"` to the
search string, and whenever the options argument is `Some` it also binds
`"includeInactive"` and `"includeActive"` to the string forms of the two
booleans, regardless of their values and of the pagination argument. -/
theorem search_query_username_and_options (s : String)
    (opts : Option UserOptions) (page : Option Pagination) :
    (searchQuery s opts page).find "username" = some s
    ∧ (∀ o, opts = some o →
        (searchQuery s opts page).find "includeInactive"
            = some (rustBoolString o.include_inactive)
        ∧ (searchQuery s opts page).find "includeActive"
            = some (rustBoolString o.include_active)) := by
  cases opts with
  | none =>
    cases page with
    | none => exact ⟨rfl, fun o h => nomatch h⟩
    | some p => exact ⟨rfl, fun o h => nomatch h⟩
  | some o0 =>
    cases page with
    | none =>
      refine ⟨rfl, fun o h => ?_⟩
      cases h
      exact ⟨rfl, rfl⟩
    | some p =>
      refine ⟨rfl, fun o h => ?_⟩
      cases h
      exact ⟨rfl, rfl⟩

/-- Witness for C9 at a concrete call:
`search("alice", Some {include_inactive: true, include_active: false}, None)`
sends `includeInactive=true`, `includeActive=false` and `username=alice`. -/
theorem search_query_username_and_options_witness :
    (searchQuery "alice" (some ⟨true, false⟩) none).find "username" = some "alice"
    ∧ (searchQuery "alice" (some ⟨true, false⟩) none).find "includeInactive"
        = some "true"
    ∧ (searchQuery "alice" (some ⟨true, false⟩) none).find "includeActive"
        = some "false" :=
  ⟨(search_query_username_and_options "alice" (some ⟨true, false⟩) none).1,
   ((search_query_username_and_options "alice" (some ⟨true, false⟩) none).2
      ⟨true, false⟩ rfl).1,
   ((search_query_username_and_options "alice" (some ⟨true, false⟩) none).2
      ⟨true, false⟩ rfl).2⟩

/-- Sequential double call of a builder embedded over an explicit ambient
state `W`: the pair of results of the first and the second call, together
with the final state. -/
def callTwice {W : Type} (f : W → QueryMap × W) (w : W) :
    (QueryMap × QueryMap) × W :=
  let r1 := f w
  let r2 := f r1.2
  ((r1.1, r2.1), r2.2)

/-- `expand_to_hashmap` embedded over an explicit ambient state `W`.  The Rust
function's body uses only its argument and fresh locals — no statics, no
interior mutability, no I/O — so its state-passing embedding ignores the state
and returns it untouched. -/
def expandBuilderSt (W : Type) (e : List Expand) : W → QueryMap × W :=
  fun w => (expand_to_hashmap e, w)

/-- The query construction of `User::search` embedded over an explicit ambient
state `W`; like `expand_to_hashmap` it touches no shared state. -/
def searchBuilderSt (W : Type) (s : String) (opts : Option UserOptions)
    (page : Option Pagination) : W → QueryMap × W :=
  fun w => (searchQuery s opts page, w)

/-- C7: the Query/Header Builder is deterministic — calling
`expand_to_hashmap` (or the option-struct translation of `User::search`)
twice in sequence on the same input yields two identical mappings, and the
ambient state is exactly what it was before the calls (no hidden
counter/state influences the result). -/
theorem query_builder_deterministic (W : Type) (w : W) (e : List Expand)
    (s : String) (opts : Option UserOptions) (page : Option Pagination) :
    ((callTwice (expandBuilderSt W e) w).1.1
        = (callTwice (expandBuilderSt W e) w).1.2
      ∧ (callTwice (expandBuilderSt W e) w).2 = w)
    ∧ ((callTwice (searchBuilderSt W s opts page) w).1.1
        = (callTwice (searchBuilderSt W s opts page) w).1.2
      ∧ (callTwice (searchBuilderSt W s opts page) w).2 = w) :=
  ⟨⟨rfl, rfl⟩, ⟨rfl, rfl⟩⟩

/-- Modelled from the spec: credentials.rs is not under src/; per §3 the
credential is an opaque capability object owned by the Client. -/
structure Credentials where
  token : String

/-- Modelled from the spec: client.rs is not under src/; per §3 a `Client` is
"immutable-by-convention configuration (base host, default headers, credential
reference)". -/
structure Client where
  host : String
  default_headers : QueryMap
  credentials : Credentials

/-- Modelled from the spec (§9, §4.3): "modifying" a Client returns a new
value; `add_header` yields a copy whose default headers carry the extra
binding (per-call values win on key collision, hence insert-or-replace). -/
def Client.add_header (c : Client) (k v : String) : Client :=
  { c with default_headers := c.default_headers.insert k v }

/-- `ApplicationRoleOptions` from src/v2/application_role.rs (lines 13-19):
the `If-Match` version hash. -/
structure ApplicationRoleOptions where
  if_match : String

/-- The client derivation performed by `ApplicationRole::update`
(src/v2/application_role.rs lines 122-131): clone the caller's Client, add the
`If-Match` header to the clone when options are given.  The result pairs the
caller's Client as it stands after the call with the private clone the `put`
is issued on. -/
def update_clients (c : Client) (o : Option ApplicationRoleOptions) :
    Client × Client :=
  let cPriv := c
  let cPriv :=
    match o with
    | none => cPriv
    | some o => cPriv.add_header "If-Match" o.if_match
  (c, cPriv)

/-- The identical client derivation performed by `ApplicationRole::update_bulk`
(src/v2/application_role.rs lines 104-116). -/
def update_bulk_clients (c : Client) (o : Option ApplicationRoleOptions) :
    Client × Client :=
  let cPriv := c
  let cPriv :=
    match o with
    | none => cPriv
    | some o => cPriv.add_header "If-Match" o.if_match
  (c, cPriv)

/-- C4: after the per-call header addition done by `ApplicationRole::update`
and `ApplicationRole::update_bulk`, the original Client — default headers,
host, credentials, everything — is unchanged; without options the private
clone equals the original, and with options only the private clone carries the
added `If-Match` header. -/
theorem update_preserves_original_client (c : Client)
    (o : Option ApplicationRoleOptions) :
    ((update_clients c o).1 = c ∧ (update_bulk_clients c o).1 = c)
    ∧ (o = none →
        (update_clients c o).2 = c ∧ (update_bulk_clients c o).2 = c)
    ∧ (∀ t, o = some t →
        (update_clients c o).2.default_headers
            = c.default_headers.insert "If-Match" t.if_match
        ∧ (update_bulk_clients c o).2.default_headers
            = c.default_headers.insert "If-Match" t.if_match) := by
  refine ⟨⟨rfl, rfl⟩, fun h => ?_, fun t ht => ?_⟩
  · subst h; exact ⟨rfl, rfl⟩
  · subst ht; exact ⟨rfl, rfl⟩

/-- Witness for C4 at a concrete client and a concrete `If-Match` hash. -/
theorem update_preserves_original_client_witness :
    (update_clients ⟨"https://example", [], ⟨"tok"⟩⟩ (some ⟨"hash1"⟩)).1
        = ⟨"https://example", [], ⟨"tok"⟩⟩
    ∧ (update_clients ⟨"https://example", [], ⟨"tok"⟩⟩
        (some ⟨"hash1"⟩)).2.default_headers = [("If-Match", "hash1")] :=
  ⟨(update_preserves_original_client ⟨"https://example", [], ⟨"tok"⟩⟩
      (some ⟨"hash1"⟩)).1.1,
   by
     rw [((update_preserves_original_client ⟨"https://example", [], ⟨"tok"⟩⟩
       (some ⟨"hash1"⟩)).2.2 ⟨"hash1"⟩ rfl).1]
     rfl⟩

/-- A JSON document, as serde_json's `Value`: the shape of request and
response bodies once parsed. -/
inductive JValue where
  | null
  | bool (b : Bool)
  | num (n : Int)
  | str (s : String)
  | arr (elems : List JValue)
  | obj (fields : List (String × JValue))

/-- Field lookup in a JSON object. -/
def jGet (fields : List (String × JValue)) (k : String) : Option JValue :=
  (fields.find? (fun p => p.1 == k)).map Prod.snd

/-- A JSON string, or nothing. -/
def asString : JValue → Option String
  | .str s => some s
  | _ => none

/-- All-strings view of a JSON array's elements. -/
def asStringList (xs : List JValue) : Option (List String) :=
  xs.mapM asString

/-- Modelled from the spec: errors.rs is not under src/.  Best-effort parse of
the API's structured error payload (§4.3, §6, §9): an object carrying an
`errorMessages` array of strings, or a bare array of message strings;
anything else fails to parse. -/
def parseErrorMessages : JValue → Option (List String)
  | .obj fields =>
      match jGet fields "errorMessages" with
      | some (.arr xs) => asStringList xs
      | _ => none
  | .arr xs => asStringList xs
  | _ => none

/-- A transport response body: the raw text together with its JSON parse
(`none` when the text is not valid JSON).  The JSON parser itself is
serde_json's, external to this repository; the structure couples a body with
that parser's verdict on it. -/
structure Body where
  text : String
  parsed : Option JValue

/-- Success statuses, per the spec's "2xx". -/
def is2xx (status : Nat) : Bool :=
  decide (200 ≤ status) && decide (status < 300)

/-- Modelled from the spec: the Error model of §4.4 (errors.rs is not under
src/): transport failure, non-2xx API error with status and parsed messages,
or a deserialization failure carrying the raw body. -/
inductive Error where
  | Transport (cause : String)
  | Api (status : Nat) (messages : List String)
  | Decode (raw_body : String)
deriving DecidableEq

/-- Modelled from the spec: the Request Pipeline's response classification
(§4.3 steps 2-3; client.rs is not under src/).  On a 2xx status the body is
deserialized into the caller's type via `decode`; any failure becomes
`Error.Decode` with the raw body.  On a non-2xx status the structured error
payload is parsed best-effort and the status is always preserved.  The
function is total: every outcome is a returned value, never a panic. -/
def classify {T : Type} (decode : JValue → Option T) (status : Nat)
    (body : Body) : Except Error T :=
  if is2xx status then
    match body.parsed with
    | none => .error (.Decode body.text)
    | some j =>
        match decode j with
        | none => .error (.Decode body.text)
        | some t => .ok t
  else
    .error (.Api status ((body.parsed.bind parseErrorMessages).getD []))

/-- Modelled from the spec: §4.3 step 1 — a transport-level failure becomes
`Error.Transport` before any classification happens. -/
inductive TransportOutcome where
  | failed (cause : String)
  | responded (status : Nat) (body : Body)

/-- Modelled from the spec: the full outcome classification of one pipeline
call. -/
def pipeline {T : Type} (decode : JValue → Option T) :
    TransportOutcome → Except Error T
  | .failed cause => .error (.Transport cause)
  | .responded status body => classify decode status body

/-- C5: every non-2xx response is classified as an `Api` error that preserves
the status code, with the parsed messages when the body parses as the
structured error payload and with no messages when it does not. -/
theorem non2xx_yields_api_error {T : Type} (decode : JValue → Option T)
    (status : Nat) (body : Body) (h : is2xx status = false) :
    classify decode status body
      = .error (.Api status ((body.parsed.bind parseErrorMessages).getD [])) := by
  simp [classify, h]

/-- Witness for C5 at the claim's example: a 404 whose body is
`{"errorMessages":["No role found"]}` yields an `Api` error with status 404
and messages exactly `["No role found"]`. -/
theorem non2xx_yields_api_error_witness :
    classify (fun _ => (none : Option Unit)) 404
        ⟨"\x7b\"errorMessages\":[\"No role found\"]\x7d",
         some (JValue.obj [("errorMessages", JValue.arr [JValue.str "No role found"])])⟩
      = .error (.Api 404 ["No role found"]) := by
  rw [non2xx_yields_api_error (fun _ => (none : Option Unit)) 404 _ rfl]
  rfl

/-- C6: every 2xx response whose body does not deserialize into the requested
type — because the body is not valid JSON, or because the decoder rejects the
parsed document — is classified as a `Decode` error carrying the raw body;
it is never a success (`classify` is total, so there is no panicking path). -/
theorem twoxx_undecodable_yields_decode_error {T : Type}
    (decode : JValue → Option T) (status : Nat) (body : Body)
    (h2 : is2xx status = true)
    (hd : body.parsed = none ∨ ∀ j, body.parsed = some j → decode j = none) :
    classify decode status body = .error (.Decode body.text) := by
  simp only [classify, h2, if_true]
  cases hp : body.parsed with
  | none => rfl
  | some j =>
    rcases hd with hd | hd
    · rw [hp] at hd; cases hd
    · simp [hd j hp]

/-- Witness for C6: a 200 whose body is not valid JSON yields a `Decode`
error carrying the raw body, not a success. -/
theorem twoxx_undecodable_yields_decode_error_witness :
    classify (fun _ => (none : Option Unit)) 200 ⟨"not json", none⟩
      = .error (.Decode "not json") :=
  twoxx_undecodable_yields_decode_error (fun _ => (none : Option Unit)) 200
    ⟨"not json", none⟩ rfl (Or.inl rfl)

/-- `ApplicationRole` from src/v2/application_role.rs (lines 21-81); the
serde renames are recorded in its encoder and decoder below. -/
structure ApplicationRole where
  key : String
  name : String
  groups : List String
  default_groups : List String
  selected_by_default : Bool
  defined : Bool
  number_of_seats : Nat
  remaining_seats : Nat
  user_count : Nat
  user_count_description : String
  has_unlimited_seats : Bool
  platform : Bool

/-- `Item` (v2/item.rs is not under src/): from its use in `User::groups` —
`serde_json::value::from_value(i.items.clone())` — it wraps a raw
`serde_json::Value` in its `items` field. -/
structure Item where
  items : JValue

/-- Modelled from the spec: v2/group.rs is not under src/; a Jira group
entity, held minimally as its name.  The C8 claim depends only on the
accessors' `None` branches, never on a group's shape. -/
structure Group where
  name : String

/-- A JSON boolean, or nothing. -/
def asBool : JValue → Option Bool
  | .bool b => some b
  | _ => none

/-- A non-negative JSON number read as a `usize`, or nothing. -/
def asNat : JValue → Option Nat
  | .num n => if n < 0 then none else some n.toNat
  | _ => none

/-- A JSON array of strings, or nothing. -/
def asStrList : JValue → Option (List String)
  | .arr xs => asStringList xs
  | _ => none

/-- serde's `#[serde(default)]` field access: a missing field takes the
default, a present field must decode. -/
def fieldD {α : Type} (dec : JValue → Option α) (dflt : α)
    (fields : List (String × JValue)) (k : String) : Option α :=
  match jGet fields k with
  | none => some dflt
  | some v => dec v

/-- serde deserialization of a `Group` (shape modelled minimally, see
`Group`). -/
def decodeGroup : JValue → Option Group
  | .obj fs => do
      let name ← fieldD asString "" fs "name"
      some { name }
  | _ => none

/-- serde deserialization of an `ApplicationRole`, per its derive: every
field defaulted when absent, renames as in the source. -/
def decodeApplicationRole : JValue → Option ApplicationRole
  | .obj fs => do
      let key ← fieldD asString "" fs "key"
      let name ← fieldD asString "" fs "name"
      let groups ← fieldD asStrList [] fs "groups"
      let default_groups ← fieldD asStrList [] fs "defaultGroups"
      let selected_by_default ← fieldD asBool false fs "selectedByDefault"
      let defined ← fieldD asBool false fs "defined"
      let number_of_seats ← fieldD asNat 0 fs "numberOfSeats"
      let remaining_seats ← fieldD asNat 0 fs "remainingSeats"
      let user_count ← fieldD asNat 0 fs "userCount"
      let user_count_description ← fieldD asString "" fs "userCountDescription"
      let has_unlimited_seats ← fieldD asBool false fs "hasUnlimitedSeats"
      let platform ← fieldD asBool false fs "platform"
      some { key, name, groups, default_groups, selected_by_default, defined,
             number_of_seats, remaining_seats, user_count,
             user_count_description, has_unlimited_seats, platform }
  | _ => none

/-- `serde_json::value::from_value::<Vec<_>>`: the document must be an array
and every element must decode. -/
def decodeList {α : Type} (dec : JValue → Option α) : JValue → Option (List α)
  | .arr xs => xs.mapM dec
  | _ => none

/-- `User` from src/v2/user.rs (lines 44-85); `avatar_urls` models the
`BTreeMap<String, String>` by its entry list, and the two trailing fields are
the only `Option`al ones, exactly as in the source. -/
structure User where
  active : Bool
  avatar_urls : List (String × String)
  display_name : String
  email_address : String
  key : String
  name : String
  self_link : String
  timezone : String
  groups : Option Item
  application_roles : Option Item

/-- `User::groups` (src/v2/user.rs lines 141-147): `None` ↦ `Vec::new()`,
`Some` ↦ `from_value(items).unwrap()`.  The `unwrap`'s panic is modelled by
`Option.none`.  The accessor takes only `&self`: it has no access to a
`Client`, so it can perform no request. -/
def User.groupsAcc (u : User) : Option (List Group) :=
  match u.groups with
  | some i => decodeList decodeGroup i.items
  | none => some []

/-- `User::application_roles` (src/v2/user.rs lines 149-155), the same shape
as `User.groupsAcc`. -/
def User.applicationRolesAcc (u : User) : Option (List ApplicationRole) :=
  match u.application_roles with
  | some i => decodeList decodeApplicationRole i.items
  | none => some []

/-- C8: with the `groups` field `None`, `User::groups()` returns the empty
vector (it does not panic), and likewise `User::application_roles()` with
`application_roles` `None`; being `&self` functions of the struct alone they
perform no request. -/
theorem user_accessors_empty_on_none (u : User) :
    (u.groups = none → u.groupsAcc = some [])
    ∧ (u.application_roles = none → u.applicationRolesAcc = some []) := by
  constructor
  · intro h; simp [User.groupsAcc, h]
  · intro h; simp [User.applicationRolesAcc, h]

/-- Witness for C8 at a concrete user whose two optional fields are `None`. -/
theorem user_accessors_empty_on_none_witness :
    User.groupsAcc ⟨true, [], "", "", "", "", "", "", none, none⟩ = some []
    ∧ User.applicationRolesAcc ⟨true, [], "", "", "", "", "", "", none, none⟩
        = some [] :=
  ⟨(user_accessors_empty_on_none ⟨true, [], "", "", "", "", "", "", none, none⟩).1 rfl,
   (user_accessors_empty_on_none ⟨true, [], "", "", "", "", "", "", none, none⟩).2 rfl⟩

mutual

/-- The serde data-model value a `Serialize` implementation feeds to
serde_json: strings, booleans, unsigned integers, maps with arbitrary
serializable keys, sequences, structs with named fields, options, and raw
`serde_json::Value`s.  This covers every field type of `User` and
`ApplicationRole`. -/
inductive SVal where
  | str (s : String)
  | bool (b : Bool)
  | nat (n : Nat)
  | value (j : JValue)
  | optNone
  | optSome (v : SVal)
  | map (entries : SPairs)
  | seq (items : SList)
  | obj (fields : SFields)

/-- A sequence of serde values. -/
inductive SList where
  | nil
  | cons (head : SVal) (tail : SList)

/-- Map entries: key/value pairs in which the key is itself an arbitrary
serde value — serde_json errors out when a key does not serialize to a
string. -/
inductive SPairs where
  | nil
  | cons (key : SVal) (val : SVal) (tail : SPairs)

/-- Struct fields: name/value pairs whose names are string literals from the
derive. -/
inductive SFields where
  | nil
  | cons (name : String) (val : SVal) (tail : SFields)

end

mutual

/-- serde_json's value serializer: total except on maps whose keys do not
serialize to strings — the one error branch reachable for plain data (the
"key must be a string" error that `to_string_pretty` would surface as `Err`). -/
def serVal : SVal → Option JValue
  | .str s => some (.str s)
  | .bool b => some (.bool b)
  | .nat n => some (.num (Int.ofNat n))
  | .value j => some j
  | .optNone => some .null
  | .optSome v => serVal v
  | .map es => (serPairs es).map JValue.obj
  | .seq xs => (serList xs).map JValue.arr
  | .obj fs => (serFields fs).map JValue.obj

/-- Serialize every element of a sequence. -/
def serList : SList → Option (List JValue)
  | .nil => some []
  | .cons v tl => do
      let j ← serVal v
      let rest ← serList tl
      some (j :: rest)

/-- Serialize map entries; a key serializing to anything but a string is the
error case. -/
def serPairs : SPairs → Option (List (String × JValue))
  | .nil => some []
  | .cons k v tl => do
      let jk ← serVal k
      match jk with
      | .str ks => do
          let jv ← serVal v
          let rest ← serPairs tl
          some ((ks, jv) :: rest)
      | _ => none

/-- Serialize struct fields; field names are strings by construction. -/
def serFields : SFields → Option (List (String × JValue))
  | .nil => some []
  | .cons nm v tl => do
      let jv ← serVal v
      let rest ← serFields tl
      some ((nm, jv) :: rest)

end

/-- A `Vec<String>` as a serde sequence of strings. -/
def strSList : List String → SList
  | [] => .nil
  | s :: r => .cons (.str s) (strSList r)

/-- A `BTreeMap<String, String>` as serde map entries: both keys and values
are strings by the Rust field type. -/
def strSPairs : List (String × String) → SPairs
  | [] => .nil
  | (k, v) :: r => .cons (.str k) (.str v) (strSPairs r)

/-- The derived `Serialize` of `ApplicationRole`: its fields in declaration
order, under their serde renames. -/
def encodeApplicationRole (r : ApplicationRole) : SVal :=
  .obj (
    .cons "key" (.str r.key) (
    .cons "name" (.str r.name) (
    .cons "groups" (.seq (strSList r.groups)) (
    .cons "defaultGroups" (.seq (strSList r.default_groups)) (
    .cons "selectedByDefault" (.bool r.selected_by_default) (
    .cons "defined" (.bool r.defined) (
    .cons "numberOfSeats" (.nat r.number_of_seats) (
    .cons "remainingSeats" (.nat r.remaining_seats) (
    .cons "userCount" (.nat r.user_count) (
    .cons "userCountDescription" (.str r.user_count_description) (
    .cons "hasUnlimitedSeats" (.bool r.has_unlimited_seats) (
    .cons "platform" (.bool r.platform) .nil))))))))))))

/-- The derived `Serialize` of `Item`: one `items` field holding a raw
`Value`. -/
def encodeItem (i : Item) : SVal :=
  .obj (.cons "items" (.value i.items) .nil)

/-- serde's `Option` serialization: `None` ↦ null, `Some` ↦ the inner
serialization. -/
def encodeOptItem : Option Item → SVal
  | none => .optNone
  | some i => .optSome (encodeItem i)

/-- The derived `Serialize` of `User`: its fields in declaration order, under
their serde renames (`avatarUrls`, `displayName`, `emailAddress`, `self`,
`timeZone`, `applicationRoles`). -/
def encodeUser (u : User) : SVal :=
  .obj (
    .cons "active" (.bool u.active) (
    .cons "avatarUrls" (.map (strSPairs u.avatar_urls)) (
    .cons "displayName" (.str u.display_name) (
    .cons "emailAddress" (.str u.email_address) (
    .cons "key" (.str u.key) (
    .cons "name" (.str u.name) (
    .cons "self" (.str u.self_link) (
    .cons "timeZone" (.str u.timezone) (
    .cons "groups" (encodeOptItem u.groups) (
    .cons "applicationRoles" (encodeOptItem u.application_roles) .nil))))))))))

/-- serde_json's `to_string_pretty`, modelled up to the JSON document it
writes: for value shapes like these the only failure point is a map key that
is not a string (the textual rendering of a finished document cannot fail),
so the result is the serialized document or the `Err` — modelled `none` —
that the `unwrap` in the two `Display` impls would panic on. -/
def to_string_pretty (v : SVal) : Option JValue :=
  serVal v

/-- The `Display` impl of `User` (src/v2/user.rs lines 161-166):
`to_string_pretty(&self).unwrap()`. -/
def User.display (u : User) : Option JValue :=
  to_string_pretty (encodeUser u)

/-- The `Display` impl of `ApplicationRole`
(src/v2/application_role.rs lines 137-142). -/
def ApplicationRole.display (r : ApplicationRole) : Option JValue :=
  to_string_pretty (encodeApplicationRole r)

/-- Serializing a string sequence never fails. -/
theorem serList_strSList (l : List String) :
    serList (strSList l) = some (l.map JValue.str) := by
  induction l with
  | nil => rfl
  | cons s r ih => simp [strSList, serList, serVal, ih]

/-- Serializing a string-keyed, string-valued map never fails: every key
serializes to a string. -/
theorem serPairs_strSPairs (l : List (String × String)) :
    serPairs (strSPairs l) = some (l.map fun p => (p.1, JValue.str p.2)) := by
  induction l with
  | nil => rfl
  | cons p r ih => simp [strSPairs, serPairs, serVal, ih]

/-- C10: for every `User` and every `ApplicationRole`, the `Display`
implementations succeed — the serde_json serialization of these types cannot
fail (every map key is a string by the Rust field types), so the `unwrap`'s
error branch is unreachable and formatting never panics. -/
theorem display_never_panics (u : User) (r : ApplicationRole) :
    (u.display).isSome ∧ (r.display).isSome := by
  constructor
  · cases hg : u.groups <;> cases ha : u.application_roles <;>
      simp [User.display, to_string_pretty, encodeUser, encodeOptItem,
        encodeItem, serVal, serFields, serPairs_strSPairs, hg, ha]
  · simp [ApplicationRole.display, to_string_pretty, encodeApplicationRole,
      serVal, serFields, serList_strSList]

end Jirac
